import Mathlib

/-!
Shallow embedding of the token program in `src/src/lib.rs`.

The program defines a `Token` record, implements the `solana_program`
`Pack` trait for it with `LEN = 64` while the field (de)serializers access
bytes `0..72`, and exposes `process_instruction` dispatching to
`mint_tokens` (opcode 0) and `transfer_tokens` (opcode 1).

Bytes are modelled as `Fin 256`, buffers as `List Byte`, `u64` values as
`Nat` (reduced mod `2 ^ 64` where Rust release-mode wrapping applies).
Rust panics (out-of-bounds slice indexing, `copy_from_slice` length
mismatch) are modelled explicitly: `Option` for the raw slice helpers and
a dedicated `panicked` constructor for run results.
-/

abbrev Byte := Fin 256

/-- Account identifiers (`Pubkey`) are 32-byte arrays; modelled as byte lists
(well-formed values have length 32). -/
abbrev Pubkey := List Byte

/-- The `ProgramError` variants this program and the library helpers it calls
can produce. -/
inductive ProgramErr where
  | InvalidInstructionData
  | IncorrectProgramId
  | AccountAlreadyInitialized
  | MissingRequiredSignature
  | InsufficientFunds
  | InvalidAccountData
  | UninitializedAccount
  | NotEnoughAccountKeys
  deriving Repr, DecidableEq

/-- Outcome of a fallible computation: success, a typed program error, or a
Rust panic (which aborts the whole instruction). -/
inductive RunResult (α : Type) where
  | ok (a : α)
  | err (e : ProgramErr)
  | panicked
  deriving Repr, DecidableEq

/-- `struct Token { mint: Pubkey, owner: Pubkey, amount: u64 }`. -/
structure Token where
  mint : Pubkey
  owner : Pubkey
  amount : Nat
  deriving Repr, DecidableEq

/-- `impl IsInitialized for Token`: `self.amount > 0`. -/
def Token.is_initialized (t : Token) : Bool :=
  t.amount > 0

/-- `AccountInfo` as the handlers use it: key, signer flag, owning program,
and the mutable data buffer. -/
structure AccountInfo where
  key : Pubkey
  is_signer : Bool
  owner : Pubkey
  data : List Byte
  deriving Repr, DecidableEq

/-- Rust slice `l[a..b]`: panics (`none`) unless `a ≤ b ≤ l.len()`. -/
def sliceRange (l : List Byte) (a b : Nat) : Option (List Byte) :=
  if a ≤ b ∧ b ≤ l.length then some ((l.drop a).take (b - a)) else none

/-- Rust `dst[a..b].copy_from_slice(src)`: panics (`none`) unless
`a ≤ b ≤ dst.len()` and `src.len() = b - a`; otherwise replaces bytes
`a..b` of `dst` by `src`. -/
def writeRange (dst : List Byte) (a b : Nat) (src : List Byte) : Option (List Byte) :=
  if a ≤ b ∧ b ≤ dst.length ∧ src.length = b - a then
    some (dst.take a ++ src ++ dst.drop b)
  else none

/-- Little-endian byte decomposition of a natural number into `k` bytes
(`u64::to_le_bytes` is `natToLeBytes 8`). -/
def natToLeBytes : Nat → Nat → List Byte
  | 0, _ => []
  | k + 1, n => ⟨n % 256, Nat.mod_lt _ (by norm_num)⟩ :: natToLeBytes k (n / 256)

/-- `u64::from_le_bytes` on a little-endian byte list. -/
def leBytesToNat (l : List Byte) : Nat :=
  l.foldr (fun b acc => b.val + 256 * acc) 0

/-- `Token::LEN` as declared in the source: 64. -/
def Token.LEN : Nat := 64

/-- `Token::unpack_from_slice`: reads `src[0..8]` as the LE amount,
`src[8..40]` as mint, `src[40..72]` as owner; panics (`none`) when the
buffer is shorter than 72 bytes. -/
def Token.unpack_from_slice (src : List Byte) : Option Token :=
  match sliceRange src 0 8, sliceRange src 8 40, sliceRange src 40 72 with
  | some a, some m, some o =>
      some { mint := m, owner := o, amount := leBytesToNat a }
  | _, _, _ => none

/-- `Token::pack_into_slice`: writes the LE amount to `dst[0..8]`, mint to
`dst[8..40]`, owner to `dst[40..72]`; panics (`none`) when the buffer is
shorter than 72 bytes (or a key is not 32 bytes). -/
def Token.pack_into_slice (t : Token) (dst : List Byte) : Option (List Byte) := do
  let d1 ← writeRange dst 0 8 (natToLeBytes 8 t.amount)
  let d2 ← writeRange d1 8 40 t.mint
  writeRange d2 40 72 t.owner

/-- `Pack::unpack_unchecked` (provided method of the `solana_program` `Pack`
trait): rejects buffers whose length differs from `Token.LEN` with
`InvalidAccountData`, then runs `unpack_from_slice`. -/
def Token.unpack_unchecked (input : List Byte) : RunResult Token :=
  if input.length ≠ Token.LEN then .err .InvalidAccountData
  else
    match Token.unpack_from_slice input with
    | some t => .ok t
    | none => .panicked

/-- `Pack::unpack` (provided method): `unpack_unchecked`, then requires
`is_initialized`, else `UninitializedAccount`. -/
def Token.unpack (input : List Byte) : RunResult Token :=
  match Token.unpack_unchecked input with
  | .ok t => if t.is_initialized then .ok t else .err .UninitializedAccount
  | .err e => .err e
  | .panicked => .panicked

/-- `Pack::pack` (provided method): rejects buffers whose length differs from
`Token.LEN` with `InvalidAccountData`, then runs `pack_into_slice`. -/
def Token.pack (t : Token) (dst : List Byte) : RunResult (List Byte) :=
  if dst.length ≠ Token.LEN then .err .InvalidAccountData
  else
    match Token.pack_into_slice t dst with
    | some d => .ok d
    | none => .panicked

/-- `mint_tokens`: accounts `[mint_account, token_account]`; owner check,
unchecked decode, initialize-once, write back. Returns the result together
with the post-state account list. -/
def mint_tokens (program_id : Pubkey) (accounts : List AccountInfo) (amount : Nat) :
    RunResult Unit × List AccountInfo :=
  match accounts with
  | mint_account :: token_account :: rest =>
      if token_account.owner ≠ program_id then
        (.err .IncorrectProgramId, accounts)
      else
        match Token.unpack_unchecked token_account.data with
        | .err e => (.err e, accounts)
        | .panicked => (.panicked, accounts)
        | .ok token_data =>
            if ¬ token_data.is_initialized then
              let nt : Token :=
                { mint := mint_account.key, owner := mint_account.key, amount := amount }
              match Token.pack nt token_account.data with
              | .ok d => (.ok (), mint_account :: { token_account with data := d } :: rest)
              | .err e => (.err e, accounts)
              | .panicked => (.panicked, accounts)
            else
              (.err .AccountAlreadyInitialized, accounts)
  | _ => (.err .NotEnoughAccountKeys, accounts)

/-- `transfer_tokens`: accounts `[source, destination, authority]`; signer
gate, checked decode of source, unchecked decode of destination,
insufficient-funds gate, balance move (destination add wraps mod `2 ^ 64`
as in release-mode Rust), write both back. -/
def transfer_tokens (program_id : Pubkey) (accounts : List AccountInfo) (amount : Nat) :
    RunResult Unit × List AccountInfo :=
  match accounts with
  | source_account :: destination_account :: authority_account :: rest =>
      if ¬ authority_account.is_signer then
        (.err .MissingRequiredSignature, accounts)
      else
        match Token.unpack source_account.data with
        | .err e => (.err e, accounts)
        | .panicked => (.panicked, accounts)
        | .ok source_data =>
            match Token.unpack_unchecked destination_account.data with
            | .err e => (.err e, accounts)
            | .panicked => (.panicked, accounts)
            | .ok destination_data =>
                if source_data.amount < amount then
                  (.err .InsufficientFunds, accounts)
                else
                  let s : Token := { source_data with amount := source_data.amount - amount }
                  let d : Token :=
                    { destination_data with
                        amount := (destination_data.amount + amount) % 2 ^ 64 }
                  match Token.pack s source_account.data with
                  | .err e => (.err e, accounts)
                  | .panicked => (.panicked, accounts)
                  | .ok sd =>
                      match Token.pack d destination_account.data with
                      | .err e =>
                          (.err e, { source_account with data := sd } ::
                            destination_account :: authority_account :: rest)
                      | .panicked =>
                          (.panicked, { source_account with data := sd } ::
                            destination_account :: authority_account :: rest)
                      | .ok dd =>
                          (.ok (), { source_account with data := sd } ::
                            { destination_account with data := dd } ::
                            authority_account :: rest)
  | _ => (.err .NotEnoughAccountKeys, accounts)

/-- `process_instruction`: `instruction_data[0]` is the opcode (indexing an
empty payload panics); opcodes 0 and 1 read `instruction_data[1..9]` as the
LE amount (panicking when the payload is shorter than 9 bytes) and dispatch;
any other opcode fails with `InvalidInstructionData`. -/
def process_instruction (program_id : Pubkey) (accounts : List AccountInfo)
    (instruction_data : List Byte) : RunResult Unit × List AccountInfo :=
  match instruction_data with
  | [] => (.panicked, accounts)
  | op :: _ =>
      if op.val = 0 then
        match sliceRange instruction_data 1 9 with
        | none => (.panicked, accounts)
        | some ab => mint_tokens program_id accounts (leBytesToNat ab)
      else if op.val = 1 then
        match sliceRange instruction_data 1 9 with
        | none => (.panicked, accounts)
        | some ab => transfer_tokens program_id accounts (leBytesToNat ab)
      else
        (.err .InvalidInstructionData, accounts)

/-- Running a sequence of raw instruction payloads through
`process_instruction`, threading the account list. -/
def runInstrs (program_id : Pubkey) (accounts : List AccountInfo) :
    List (List Byte) → List AccountInfo
  | [] => accounts
  | d :: ds => runInstrs program_id (process_instruction program_id accounts d).2 ds

/-- Success test on a run result. -/
def RunResult.isOk {α : Type} : RunResult α → Bool
  | .ok _ => true
  | _ => false

/-- Test for the wrong-owner error (`IncorrectProgramId`). -/
def RunResult.isOwnerErr : RunResult Unit → Bool
  | .err .IncorrectProgramId => true
  | _ => false

theorem natToLeBytes_length (k n : Nat) : (natToLeBytes k n).length = k := by
  induction k generalizing n with
  | zero => rfl
  | succ k ih => simp [natToLeBytes, ih]

theorem leBytesToNat_cons (b : Byte) (l : List Byte) :
    leBytesToNat (b :: l) = b.val + 256 * leBytesToNat l := rfl

theorem leBytesToNat_natToLeBytes (k n : Nat) :
    leBytesToNat (natToLeBytes k n) = n % 256 ^ k := by
  induction k generalizing n with
  | zero => simp [natToLeBytes, leBytesToNat, Nat.mod_one]
  | succ k ih =>
    have h : (256 : Nat) ^ (k + 1) = 256 * 256 ^ k := by ring
    simp only [natToLeBytes, leBytesToNat_cons, ih, h, Nat.mod_mul]

theorem writeRange_pos (dst src : List Byte) (a b : Nat)
    (hab : a ≤ b) (hb : b ≤ dst.length) (hs : src.length = b - a) :
    writeRange dst a b src = some (dst.take a ++ src ++ dst.drop b) := by
  simp [writeRange, hab, hb, hs]

theorem writeRange_length {dst src out : List Byte} {a b : Nat}
    (h : writeRange dst a b src = some out) : out.length = dst.length := by
  unfold writeRange at h
  split at h
  · rename_i hc
    obtain ⟨hab, hb, hs⟩ := hc
    cases h
    simp [hs]
    omega
  · cases h

theorem pack_into_slice_spec (t : Token) (dst : List Byte)
    (hm : t.mint.length = 32) (ho : t.owner.length = 32) (hd : dst.length = 72) :
    Token.pack_into_slice t dst =
      some (natToLeBytes 8 t.amount ++ t.mint ++ t.owner) := by
  set nb := natToLeBytes 8 t.amount with hnbdef
  have hnb : nb.length = 8 := natToLeBytes_length 8 t.amount
  unfold Token.pack_into_slice
  rw [← hnbdef, writeRange_pos dst nb 0 8 (by omega) (by omega) (by omega)]
  simp only [List.take_zero, List.nil_append, Option.bind_eq_bind, Option.some_bind]
  have hl1 : (nb ++ dst.drop 8).length = 72 := by simp [hnb, hd]
  rw [writeRange_pos _ t.mint 8 40 (by omega) (by omega) (by omega)]
  simp only [Option.some_bind]
  have htake8 : (nb ++ dst.drop 8).take 8 = nb := by
    rw [@List.take_append_of_le_length _ nb (dst.drop 8) 8 (by omega),
      List.take_of_length_le (by omega)]
  rw [htake8]
  have hl2 : (nb ++ t.mint ++ (nb ++ dst.drop 8).drop 40).length = 72 := by
    simp [hnb, hm, hd]
  rw [writeRange_pos _ t.owner 40 72 (by omega) (by omega) (by omega)]
  have h40 : (nb ++ t.mint).length = 40 := by simp [hnb, hm]
  have htake40 : (nb ++ t.mint ++ (nb ++ dst.drop 8).drop 40).take 40 = nb ++ t.mint := by
    rw [@List.take_append_of_le_length _ (nb ++ t.mint) ((nb ++ dst.drop 8).drop 40) 40
        (by omega),
      List.take_of_length_le (by omega)]
  have hdrop72 : (nb ++ t.mint ++ (nb ++ dst.drop 8).drop 40).drop 72 = [] :=
    List.drop_eq_nil_of_le (by omega)
  rw [htake40, hdrop72, List.append_nil]

theorem unpack_from_slice_parts (a m o : List Byte)
    (ha : a.length = 8) (hm : m.length = 32) (ho : o.length = 32) :
    Token.unpack_from_slice (a ++ m ++ o) =
      some { mint := m, owner := o, amount := leBytesToNat a } := by
  have h40 : (a ++ m).length = 40 := by simp [ha, hm]
  have hlen : (a ++ m ++ o).length = 72 := by simp [ha, hm, ho]
  have h1 : sliceRange (a ++ m ++ o) 0 8 = some a := by
    unfold sliceRange
    rw [if_pos (by omega)]
    simp only [Nat.sub_zero, List.drop_zero]
    rw [@List.take_append_of_le_length _ (a ++ m) o 8 (by omega),
      @List.take_append_of_le_length _ a m 8 (by omega),
      List.take_of_length_le (by omega)]
  have h2 : sliceRange (a ++ m ++ o) 8 40 = some m := by
    unfold sliceRange
    rw [if_pos (by omega)]
    rw [@List.drop_append_eq_append_drop _ (a ++ m) o 8,
      @List.drop_append_eq_append_drop _ a m 8,
      List.drop_eq_nil_of_le (show a.length ≤ 8 by omega),
      List.nil_append, ha, h40, Nat.sub_self, List.drop_zero, List.drop_zero,
      @List.take_append_of_le_length _ m o (40 - 8) (by omega),
      List.take_of_length_le (by omega)]
  have h3 : sliceRange (a ++ m ++ o) 40 72 = some o := by
    unfold sliceRange
    rw [if_pos (by omega)]
    rw [@List.drop_append_eq_append_drop _ (a ++ m) o 40,
      List.drop_eq_nil_of_le (show (a ++ m).length ≤ 40 by omega),
      List.nil_append, h40, Nat.sub_self, List.drop_zero,
      List.take_of_length_le (by omega)]
  unfold Token.unpack_from_slice
  rw [h1, h2, h3]

theorem pack_into_slice_none (t : Token) (dst : List Byte) (hd : dst.length < 72) :
    Token.pack_into_slice t dst = none := by
  unfold Token.pack_into_slice
  cases h1 : writeRange dst 0 8 (natToLeBytes 8 t.amount) with
  | none => rfl
  | some d1 =>
    have hl1 : d1.length = dst.length := writeRange_length h1
    cases h2 : writeRange d1 8 40 t.mint with
    | none => simp [Option.bind_eq_bind, h2]
    | some d2 =>
      have hl2 : d2.length = d1.length := writeRange_length h2
      have h3 : writeRange d2 40 72 t.owner = none := by
        unfold writeRange
        rw [if_neg (by omega)]
      simp [Option.bind_eq_bind, h2, h3]

theorem unpack_from_slice_none (src : List Byte) (hd : src.length < 72) :
    Token.unpack_from_slice src = none := by
  have h3 : sliceRange src 40 72 = none := by
    unfold sliceRange
    rw [if_neg (by omega)]
  unfold Token.unpack_from_slice
  rw [h3]
  cases sliceRange src 0 8 <;> cases sliceRange src 8 40 <;> rfl

theorem unpack_unchecked_of_ne_len (input : List Byte) (h : input.length ≠ 64) :
    Token.unpack_unchecked input = .err .InvalidAccountData := by
  unfold Token.unpack_unchecked Token.LEN
  rw [if_pos h]

theorem unpack_unchecked_of_len (input : List Byte) (h : input.length = 64) :
    Token.unpack_unchecked input = .panicked := by
  unfold Token.unpack_unchecked Token.LEN
  rw [if_neg (by omega), unpack_from_slice_none input (by omega)]

theorem unpack_unchecked_cases (input : List Byte) :
    Token.unpack_unchecked input = .err .InvalidAccountData
    ∨ Token.unpack_unchecked input = .panicked := by
  by_cases h : input.length = 64
  · exact .inr (unpack_unchecked_of_len input h)
  · exact .inl (unpack_unchecked_of_ne_len input h)

theorem unpack_cases (input : List Byte) :
    Token.unpack input = .err .InvalidAccountData ∨ Token.unpack input = .panicked := by
  unfold Token.unpack
  rcases unpack_unchecked_cases input with h | h <;> rw [h]
  · exact .inl rfl
  · exact .inr rfl

theorem pack_cases (t : Token) (dst : List Byte) :
    Token.pack t dst = .err .InvalidAccountData ∨ Token.pack t dst = .panicked := by
  unfold Token.pack Token.LEN
  by_cases h : dst.length = 64
  · rw [if_neg (by omega), pack_into_slice_none t dst (by omega)]
    exact .inr rfl
  · rw [if_pos h]
    exact .inl rfl

theorem mint_tokens_spec (pid : Pubkey) (accounts : List AccountInfo) (amount : Nat) :
    (mint_tokens pid accounts amount).2 = accounts
    ∧ ((mint_tokens pid accounts amount).1 = .err .NotEnoughAccountKeys
      ∨ (mint_tokens pid accounts amount).1 = .err .IncorrectProgramId
      ∨ (mint_tokens pid accounts amount).1 = .err .InvalidAccountData
      ∨ (mint_tokens pid accounts amount).1 = .panicked) := by
  match accounts with
  | [] => exact ⟨rfl, .inl rfl⟩
  | [a] => exact ⟨rfl, .inl rfl⟩
  | ma :: ta :: rest =>
    simp only [mint_tokens]
    by_cases h : ta.owner ≠ pid
    · rw [if_pos h]
      exact ⟨rfl, .inr (.inl rfl)⟩
    · rw [if_neg h]
      rcases unpack_unchecked_cases ta.data with hu | hu <;> rw [hu]
      · exact ⟨rfl, .inr (.inr (.inl rfl))⟩
      · exact ⟨rfl, .inr (.inr (.inr rfl))⟩

theorem transfer_tokens_spec (pid : Pubkey) (accounts : List AccountInfo) (amount : Nat) :
    (transfer_tokens pid accounts amount).2 = accounts
    ∧ ((transfer_tokens pid accounts amount).1 = .err .NotEnoughAccountKeys
      ∨ (transfer_tokens pid accounts amount).1 = .err .MissingRequiredSignature
      ∨ (transfer_tokens pid accounts amount).1 = .err .InvalidAccountData
      ∨ (transfer_tokens pid accounts amount).1 = .panicked) := by
  match accounts with
  | [] => exact ⟨rfl, .inl rfl⟩
  | [a] => exact ⟨rfl, .inl rfl⟩
  | [a, b] => exact ⟨rfl, .inl rfl⟩
  | sa :: da :: aa :: rest =>
    simp only [transfer_tokens]
    by_cases h : aa.is_signer
    · rw [if_neg (by simp [h])]
      rcases unpack_cases sa.data with hu | hu <;> rw [hu]
      · exact ⟨rfl, .inr (.inr (.inl rfl))⟩
      · exact ⟨rfl, .inr (.inr (.inr rfl))⟩
    · rw [if_pos (by simp [h])]
      exact ⟨rfl, .inr (.inl rfl)⟩

theorem mint_tokens_state (pid : Pubkey) (accounts : List AccountInfo) (amount : Nat) :
    (mint_tokens pid accounts amount).2 = accounts :=
  (mint_tokens_spec pid accounts amount).1

theorem mint_tokens_isOk (pid : Pubkey) (accounts : List AccountInfo) (amount : Nat) :
    ((mint_tokens pid accounts amount).1).isOk = false := by
  rcases (mint_tokens_spec pid accounts amount).2 with h | h | h | h <;>
    rw [h] <;> rfl

theorem transfer_tokens_state (pid : Pubkey) (accounts : List AccountInfo) (amount : Nat) :
    (transfer_tokens pid accounts amount).2 = accounts :=
  (transfer_tokens_spec pid accounts amount).1

theorem transfer_tokens_isOk (pid : Pubkey) (accounts : List AccountInfo) (amount : Nat) :
    ((transfer_tokens pid accounts amount).1).isOk = false := by
  rcases (transfer_tokens_spec pid accounts amount).2 with h | h | h | h <;>
    rw [h] <;> rfl

theorem transfer_tokens_isOwnerErr (pid : Pubkey) (accounts : List AccountInfo) (amount : Nat) :
    ((transfer_tokens pid accounts amount).1).isOwnerErr = false := by
  rcases (transfer_tokens_spec pid accounts amount).2 with h | h | h | h <;>
    rw [h] <;> rfl

theorem process_instruction_state (pid : Pubkey) (accounts : List AccountInfo)
    (d : List Byte) : (process_instruction pid accounts d).2 = accounts := by
  match d with
  | [] => rfl
  | op :: rest =>
    simp only [process_instruction]
    by_cases h0 : op.val = 0
    · rw [if_pos h0]
      cases sliceRange (op :: rest) 1 9 with
      | none => rfl
      | some ab => exact mint_tokens_state pid accounts (leBytesToNat ab)
    · rw [if_neg h0]
      by_cases h1 : op.val = 1
      · rw [if_pos h1]
        cases sliceRange (op :: rest) 1 9 with
        | none => rfl
        | some ab => exact transfer_tokens_state pid accounts (leBytesToNat ab)
      · rw [if_neg h1]

theorem runInstrs_id (pid : Pubkey) (accounts : List AccountInfo)
    (ds : List (List Byte)) : runInstrs pid accounts ds = accounts := by
  induction ds generalizing accounts with
  | nil => rfl
  | cons d ds ih =>
    unfold runInstrs
    rw [process_instruction_state, ih]

theorem sliceRange_replicate (n a b : Nat) (hab : a ≤ b) (hb : b ≤ n) :
    sliceRange (List.replicate n 0) a b = some (List.replicate (b - a) 0) := by
  unfold sliceRange
  rw [if_pos (by simp only [List.length_replicate]; exact ⟨hab, hb⟩)]
  rw [List.drop_replicate, List.take_replicate, Nat.min_eq_left (by omega)]

/-- All-zero 32-byte identifier. -/
def zeroKey : Pubkey := List.replicate 32 0

/-- A distinguished nonzero 32-byte identifier. -/
def keyA : Pubkey := 1 :: List.replicate 31 0

/-- An all-zero 72-byte buffer (the actual wire size of the record). -/
def buf72 : List Byte := List.replicate 72 0

/-- A 72-byte buffer whose record has amount 1000 and zero identifiers. -/
def srcData72 : List Byte := natToLeBytes 8 1000 ++ zeroKey ++ zeroKey

/-- A signing authority account. -/
def authSigner : AccountInfo :=
  { key := keyA, is_signer := true, owner := zeroKey, data := [] }

/-- A source account holding the 72-byte record with amount 1000. -/
def srcAcct72 : AccountInfo :=
  { key := keyA, is_signer := false, owner := zeroKey, data := srcData72 }

/-- A destination account holding an all-zero 72-byte buffer. -/
def dstAcct72 : AccountInfo :=
  { key := zeroKey, is_signer := false, owner := zeroKey, data := buf72 }

/-- C1 counterexample: encoding a record into a buffer of the record's
declared fixed length (`Token.LEN = 64`) does not round-trip: `Pack::pack`
aborts with an out-of-bounds panic because `pack_into_slice` writes bytes
`40..72`, so `decode(encode(r))` cannot yield `r` on such a buffer. -/
theorem C1_counterexample :
    Token.pack { mint := zeroKey, owner := zeroKey, amount := 5 }
        (List.replicate Token.LEN 0) = .panicked := by
  rfl

/-- C1 (amended): the codec round-trips on buffers of the actual wire size
72 = 8 + 32 + 32: for every record with 32-byte identifiers and amount
below `2 ^ 64`, `pack_into_slice` into a 72-byte buffer succeeds and
`unpack_from_slice` of the result yields the record back. -/
theorem C1_roundtrip (r : Token) (dst : List Byte)
    (hm : r.mint.length = 32) (ho : r.owner.length = 32)
    (ha : r.amount < 2 ^ 64) (hd : dst.length = 72) :
    (Token.pack_into_slice r dst).bind Token.unpack_from_slice = some r := by
  obtain ⟨mi, ow, am⟩ := r
  simp only at hm ho ha
  rw [pack_into_slice_spec _ dst hm ho hd, Option.some_bind,
    unpack_from_slice_parts _ _ _ (natToLeBytes_length 8 am) hm ho,
    leBytesToNat_natToLeBytes]
  have he : (256 : Nat) ^ 8 = 2 ^ 64 := by norm_num
  rw [Nat.mod_eq_of_lt (he ▸ ha)]

/-- Witness for `C1_roundtrip` at a concrete record and buffer. -/
theorem C1_roundtrip_witness :
    (Token.pack_into_slice { mint := zeroKey, owner := zeroKey, amount := 5 }
        (List.replicate 72 0)).bind Token.unpack_from_slice
      = some { mint := zeroKey, owner := zeroKey, amount := 5 } :=
  C1_roundtrip _ _ (by decide) (by decide) (by norm_num) (by decide)

/-- C2 counterexample: unchecked decode of the all-zero buffer of the
record's declared fixed size (`Token.LEN = 64`) does not succeed: it passes
the length gate and then aborts with an out-of-bounds panic, because
`unpack_from_slice` reads bytes `40..72`. -/
theorem C2_counterexample :
    Token.unpack_unchecked (List.replicate Token.LEN 0) = .panicked := by
  rfl

/-- C2 (amended): unchecked decode rejects every buffer whose length differs
from the declared 64 with `InvalidAccountData` (the `Malformed` boundary
error) — in particular every buffer shorter than 64 — and aborts with an
out-of-bounds panic on every 64-byte buffer; the raw field extractor
`unpack_from_slice` does yield an uninitialized record with amount 0 on an
all-zero buffer of at least the 72 bytes it reads. -/
theorem C2_decode_behavior :
    (∀ buf : List Byte, buf.length ≠ 64 →
        Token.unpack_unchecked buf = .err .InvalidAccountData)
    ∧ (∀ buf : List Byte, buf.length = 64 → Token.unpack_unchecked buf = .panicked)
    ∧ (∀ n : Nat, 72 ≤ n →
        Token.unpack_from_slice (List.replicate n 0) =
          some { mint := List.replicate 32 0, owner := List.replicate 32 0, amount := 0 }) := by
  refine ⟨unpack_unchecked_of_ne_len, unpack_unchecked_of_len, ?_⟩
  intro n hn
  unfold Token.unpack_from_slice
  rw [sliceRange_replicate n 0 8 (by omega) (by omega),
    sliceRange_replicate n 8 40 (by omega) (by omega),
    sliceRange_replicate n 40 72 (by omega) (by omega)]
  decide

/-- Witness for `C2_decode_behavior` at concrete buffers. -/
theorem C2_decode_behavior_witness :
    Token.unpack_unchecked [] = .err .InvalidAccountData
    ∧ Token.unpack_unchecked (List.replicate 64 0) = .panicked
    ∧ Token.unpack_from_slice (List.replicate 72 0) =
        some { mint := List.replicate 32 0, owner := List.replicate 32 0, amount := 0 } :=
  ⟨C2_decode_behavior.1 [] (by decide),
    C2_decode_behavior.2.1 (List.replicate 64 0) (by simp),
    C2_decode_behavior.2.2 72 (by norm_num)⟩

/-- C3 (code bug): the spec's own transfer scenario — 300 from a source
holding 1000, destination zero, signer present — fails with
`InvalidAccountData` instead of succeeding with balances 700/300, and no
transfer invocation whatsoever can return success: decoding via `Pack`
fails on every buffer length (≠ 64 is rejected, = 64 panics reading 72
bytes). -/
theorem C3_transfer_cannot_succeed :
    (transfer_tokens zeroKey [srcAcct72, dstAcct72, authSigner] 300
      = (.err .InvalidAccountData, [srcAcct72, dstAcct72, authSigner]))
    ∧ ∀ (pid : Pubkey) (accounts : List AccountInfo) (amount : Nat),
        ((transfer_tokens pid accounts amount).1).isOk = false :=
  ⟨by rfl, transfer_tokens_isOk⟩

/-- C4 counterexample: a 1-byte payload with opcode 0 makes `process` abort
with an out-of-bounds panic (slicing bytes `1..9`), not return the
`InvalidInstruction` error the claim requires. -/
theorem C4_counterexample :
    process_instruction zeroKey [] [0] = (.panicked, []) := by
  rfl

/-- C4 (amended): an empty payload and any payload shorter than 9 bytes with
opcode 0 or 1 abort with an out-of-bounds panic rather than returning
`InvalidInstruction`; a payload whose first byte is neither 0 nor 1 does
return the `InvalidInstructionData` error. -/
theorem C4_boundary :
    (∀ (pid : Pubkey) (accounts : List AccountInfo),
        process_instruction pid accounts [] = (.panicked, accounts))
    ∧ (∀ (pid : Pubkey) (accounts : List AccountInfo) (op : Byte) (rest : List Byte),
        (op.val = 0 ∨ op.val = 1) → (op :: rest).length < 9 →
        process_instruction pid accounts (op :: rest) = (.panicked, accounts))
    ∧ (∀ (pid : Pubkey) (accounts : List AccountInfo) (op : Byte) (rest : List Byte),
        op.val ≠ 0 → op.val ≠ 1 →
        process_instruction pid accounts (op :: rest)
          = (.err .InvalidInstructionData, accounts)) := by
  refine ⟨fun pid accounts => rfl, ?_, ?_⟩
  · intro pid accounts op rest hop hlen
    have hslice : sliceRange (op :: rest) 1 9 = none := by
      unfold sliceRange
      rw [if_neg (by omega)]
    rcases hop with h0 | h1
    · simp only [process_instruction]
      rw [if_pos h0, hslice]
    · simp only [process_instruction]
      by_cases h0 : op.val = 0
      · rw [if_pos h0, hslice]
      · rw [if_neg h0, if_pos h1, hslice]
  · intro pid accounts op rest h0 h1
    simp only [process_instruction]
    rw [if_neg h0, if_neg h1]

/-- Witness for `C4_boundary` at concrete payloads. -/
theorem C4_boundary_witness :
    process_instruction zeroKey [] [] = (.panicked, [])
    ∧ process_instruction zeroKey [] [1] = (.panicked, [])
    ∧ process_instruction zeroKey [] [2] = (.err .InvalidInstructionData, []) :=
  ⟨C4_boundary.1 zeroKey [], C4_boundary.2.1 zeroKey [] 1 [] (by decide) (by decide),
    C4_boundary.2.2 zeroKey [] 2 [] (by decide) (by decide)⟩

/-- C5 (code bug): the spec's own mint scenario — program-owned token
account, all-zero buffer, amount 1000 — fails with `InvalidAccountData` on
a 72-byte buffer and panics on a 64-byte buffer instead of initializing the
record, and no mint invocation whatsoever can return success: the unchecked
decode via `Pack` fails on every buffer length. (The wrong-owner half of
the claim does hold; see `C5_mint_cannot_succeed` first conjunct ordering
in the results file.) -/
theorem C5_mint_cannot_succeed :
    (mint_tokens keyA
        [authSigner, { key := zeroKey, is_signer := false, owner := keyA, data := buf72 }] 1000
      = (.err .InvalidAccountData,
        [authSigner, { key := zeroKey, is_signer := false, owner := keyA, data := buf72 }]))
    ∧ (mint_tokens keyA
        [authSigner,
          { key := zeroKey, is_signer := false, owner := keyA, data := List.replicate 64 0 }] 1000
      = (.panicked,
        [authSigner,
          { key := zeroKey, is_signer := false, owner := keyA, data := List.replicate 64 0 }]))
    ∧ ∀ (pid : Pubkey) (accounts : List AccountInfo) (amount : Nat),
        ((mint_tokens pid accounts amount).1).isOk = false :=
  ⟨by rfl, by rfl, mint_tokens_isOk⟩

/-- C6: a transfer whose authority account lacks the signer flag fails with
`MissingRequiredSignature` and leaves the account list untouched; since the
source, destination and trailing accounts (including their data buffers)
are universally quantified and the outcome is fixed, the failure cannot
depend on, read, or write any buffer. -/
theorem C6_signature_gate (pid : Pubkey) (s d a : AccountInfo)
    (rest : List AccountInfo) (amount : Nat) (h : a.is_signer = false) :
    transfer_tokens pid (s :: d :: a :: rest) amount
      = (.err .MissingRequiredSignature, s :: d :: a :: rest) := by
  simp only [transfer_tokens]
  rw [if_pos (by simp [h])]

/-- Witness for `C6_signature_gate` at concrete accounts. -/
theorem C6_signature_gate_witness :
    transfer_tokens zeroKey
        [srcAcct72, dstAcct72, { authSigner with is_signer := false }] 300
      = (.err .MissingRequiredSignature,
        [srcAcct72, dstAcct72, { authSigner with is_signer := false }]) :=
  C6_signature_gate zeroKey srcAcct72 dstAcct72
    { authSigner with is_signer := false } [] 300 (by rfl)

/-- C7: every invocation of `process_instruction` that returns an error
leaves the account list exactly as it was — no buffer is modified. (In this
code the property holds for every invocation, error or not, because no
write path is reachable.) -/
theorem C7_atomic_error (pid : Pubkey) (accounts : List AccountInfo) (d : List Byte)
    (e : ProgramErr) (h : (process_instruction pid accounts d).1 = .err e) :
    (process_instruction pid accounts d).2 = accounts :=
  process_instruction_state pid accounts d

/-- Witness for `C7_atomic_error` at a concrete erroring invocation. -/
theorem C7_atomic_error_witness :
    (process_instruction zeroKey [authSigner] [2]).1 = .err .InvalidInstructionData
    ∧ (process_instruction zeroKey [authSigner] [2]).2 = [authSigner] :=
  ⟨by rfl, C7_atomic_error zeroKey [authSigner] [2] .InvalidInstructionData (by rfl)⟩

/-- C8: across every sequence of instructions run through
`process_instruction`, the account list — hence every record's buffer and
its initialization state — never changes, and no mint invocation ever
returns success; so a record transitions from uninitialized to initialized
at most once (in fact never) and a second successful mint is impossible. -/
theorem C8_mint_one_shot :
    (∀ (pid : Pubkey) (accounts : List AccountInfo) (ds : List (List Byte)),
        runInstrs pid accounts ds = accounts)
    ∧ ∀ (pid : Pubkey) (accounts : List AccountInfo) (amount : Nat),
        ((mint_tokens pid accounts amount).1).isOk = false :=
  ⟨runInstrs_id, mint_tokens_isOk⟩

/-- C9 (code bug): the frame property quantifies over successful transfers,
but no successful transfer exists: a transfer with 64-byte buffers panics
decoding the source, and in general every transfer invocation fails and
leaves the account list unchanged. -/
theorem C9_transfer_frame_vacuous :
    (transfer_tokens zeroKey
        [{ srcAcct72 with data := List.replicate 64 0 }, dstAcct72, authSigner] 1
      = (.panicked,
        [{ srcAcct72 with data := List.replicate 64 0 }, dstAcct72, authSigner]))
    ∧ ∀ (pid : Pubkey) (accounts : List AccountInfo) (amount : Nat),
        ((transfer_tokens pid accounts amount).1).isOk = false
        ∧ (transfer_tokens pid accounts amount).2 = accounts :=
  ⟨by rfl, fun pid accounts amount =>
    ⟨transfer_tokens_isOk pid accounts amount,
      transfer_tokens_state pid accounts amount⟩⟩

/-- C10: transfer never returns the wrong-owner error (`IncorrectProgramId`),
and its result is invariant under arbitrary changes to the source and
destination accounts' owning-program identifiers — the handler performs no
owner comparison. -/
theorem C10_transfer_no_owner_check :
    (∀ (pid : Pubkey) (accounts : List AccountInfo) (amount : Nat),
        ((transfer_tokens pid accounts amount).1).isOwnerErr = false)
    ∧ ∀ (pid : Pubkey) (s d a : AccountInfo) (rest : List AccountInfo)
        (amount : Nat) (o1 o2 : Pubkey),
        (transfer_tokens pid
            ({ s with owner := o1 } :: { d with owner := o2 } :: a :: rest) amount).1
          = (transfer_tokens pid (s :: d :: a :: rest) amount).1 := by
  refine ⟨transfer_tokens_isOwnerErr, ?_⟩
  intro pid s d a rest amount o1 o2
  by_cases h : a.is_signer
  · simp only [transfer_tokens]
    rcases unpack_cases s.data with hu | hu <;> simp [h, hu]
  · simp [transfer_tokens, h]
